import Mathlib

/-!
Verification development for the Snakes and Foxes game engine
(src/board.py, src/player.py, src/game.py).

The embedding models the default board built by `Game.__init__` /
`Board.__init__`: 6 concentric circles, 10 nodes per circle, center at
(900, 500), circle spacing 80.  Node screen coordinates are the integers
produced by `int(center + radius*cos(angle))` / `int(center +
radius*sin(angle))` in `Board._generate_board`; they are tabulated below as
exact integer constants.  Pure rendering and animation interpolation code
(screen drawing, animation paths, message display fields) is outside the
embedded core, mirroring the spec scope; every state-changing decision of
the engine is modelled.

Euclidean distances in the source are computed as Python floats
`((dx)**2 + (dy)**2) ** 0.5` from integer coordinates bounded by the
window size.  On this range the float square root is strictly monotone in
the integer radicand (adjacent integer radicands differ by far more than
one ulp of the root), so every float distance comparison in the source
coincides with the comparison of the exact integer squared distances; the
embedding therefore compares squared integer distances.
-/

namespace SnakesFoxes

/-- A board node as in board.py BoardNode: screen coordinates plus circle and
node indices.  Structural equality on all four fields matches
BoardNode.eq and BoardNode.hash. -/
structure Node where
  x : Int
  y : Int
  ring : Nat
  idx : Nat
deriving DecidableEq, Repr

def numCircles : Nat := 6
def nodesPerCircle : Nat := 10

/-- Integer x coordinates of rings 1..5 (row c-1), positions 0..9, equal to
int(900 + (c+1)*80*cos(2*pi*k/10)) as computed in Board.generate. -/
def xTable : List (List Int) :=
  [[1060, 1029, 949, 850, 770, 740, 770, 850, 949, 1029],
   [1140, 1094, 974, 825, 705, 660, 705, 825, 974, 1094],
   [1220, 1158, 998, 801, 641, 580, 641, 801, 998, 1158],
   [1300, 1223, 1023, 776, 576, 500, 576, 776, 1023, 1223],
   [1380, 1288, 1048, 751, 511, 420, 511, 751, 1048, 1288]]

/-- Integer y coordinates of rings 1..5, positions 0..9, equal to
int(500 + (c+1)*80*sin(2*pi*k/10)). -/
def yTable : List (List Int) :=
  [[500, 594, 652, 652, 594, 500, 405, 347, 347, 405],
   [500, 641, 728, 728, 641, 500, 358, 271, 271, 358],
   [500, 688, 804, 804, 688, 500, 311, 195, 195, 311],
   [500, 735, 880, 880, 735, 500, 264, 119, 119, 264],
   [500, 782, 956, 956, 782, 500, 217, 43, 43, 217]]

/-- The single ring-0 node at the window center, Board.center_node. -/
def centerNode : Node := ⟨900, 500, 0, 0⟩

/-- The node of ring c (1..5) at position i (0..9) with its tabulated
coordinates. -/
def mkNode (c i : Nat) : Node :=
  ⟨((xTable.get? (c - 1)).bind (fun r => r.get? i)).getD 900,
   ((yTable.get? (c - 1)).bind (fun r => r.get? i)).getD 500, c, i⟩

/-- Number of nodes in ring c: ring 0 holds the single center node, the
others hold nodes_per_circle nodes (len(self.nodes[c])). -/
def ringSize (c : Nat) : Nat := if c = 0 then 1 else nodesPerCircle

/-- The nodes of ring c in position order, as stored in Board.nodes[c]. -/
def ringNodes (c : Nat) : List Node := (List.range nodesPerCircle).map (mkNode c)

/-- Board.nodes: the full generated node table, rings 0..5. -/
def boardNodes : List (List Node) :=
  [[centerNode], ringNodes 1, ringNodes 2, ringNodes 3, ringNodes 4, ringNodes 5]

/-- All 51 nodes of the board. -/
def allNodes : List Node := boardNodes.flatten

/-- Board.circle_directions[c]: even rings rotate by -1, odd rings by +1. -/
def circleDirections (c : Nat) : Int := if c % 2 = 0 then -1 else 1

/-- Total version of Board.get_node for the index ranges the engine itself
uses (ring below 6; ring 0 only ever queried at a position that normalizes
to 0, where it yields the center node). -/
def nodeAt (c i : Nat) : Node :=
  if c = 0 then centerNode else mkNode c (i % nodesPerCircle)

/-- Board.get_node guarded by the ring bound check, as called with the bound
possibly violated (used by ring-adjacency enumeration). -/
def getNodeOpt (c i : Nat) : Option Node :=
  if c < numCircles then some (nodeAt c i) else none

/-- Board.get_node with full observable behavior for arbitrary integer
inputs: some (some n) is a returned node, some none is the explicit None
result for a ring index outside [0, num_circles), and none marks the
IndexError raised by nodes[circle_idx][node_idx mod 10] when the row is
shorter than the normalized position (only possible for ring 0). -/
def getNodeRes (c p : Int) : Option (Option Node) :=
  if 0 ≤ c ∧ c < (numCircles : Int) then
    match (boardNodes.get? c.toNat).bind (fun row => row.get? ((p % 10)).toNat) with
    | some n => some (some n)
    | none => none
  else some none

/-- Coordinate-only comparison n.x == m.x and n.y == m.y, used throughout
the source wherever nodes are compared by position. -/
def coordEq (a b : Node) : Bool := a.x == b.x && a.y == b.y

/-- The piece-position part of the board state: Board.player_pieces,
Board.fox_pieces, Board.snake_pieces. -/
structure BoardState where
  playerPieces : List Node
  foxPieces : List Node
  snakePieces : List Node
deriving DecidableEq, Repr

/-- Board.is_node_occupied. -/
def isNodeOccupied (st : BoardState) (node : Node) (cur : Option Node) : Bool :=
  if node = centerNode then
    st.foxPieces.any (fun f => coordEq f node) ||
      st.snakePieces.any (fun s => coordEq s node)
  else if st.foxPieces.contains node then decide (cur ≠ some node)
  else if st.snakePieces.contains node then decide (cur ≠ some node)
  else if st.playerPieces.any (fun p => coordEq node p) then
    match cur with
    | some c => !coordEq node c
    | none => true
  else false

/-- The recurring test previous_node and node.x == previous_node.x and
node.y == previous_node.y. -/
def matchesPrev (prev : Option Node) (n : Node) : Bool :=
  match prev with
  | some p => coordEq n p
  | none => false

/-- Shorthand for the admission test used on candidate destinations:
not occupied, or coordinate-equal to the previous node. -/
def admissible (st : BoardState) (cur : Node) (prev : Option Node) (n : Node) : Bool :=
  !isNodeOccupied st n (some cur) || matchesPrev prev n

/-- Board.get_valid_moves.  Branch structure follows the source: the center
case, the player-on-outermost-ring case, then the general case; in the
general case the outward hop is only ever appended in the
player-moving-to-outermost subcase, exactly as in the source (which has no
other append for the outward node). -/
def getValidMoves (st : BoardState) (cur : Node) (dice : Nat) (isPlayer : Bool)
    (prev : Option Node) : List Node :=
  let c := cur.ring
  let i := cur.idx
  if c = 0 then
    if dice = 1 then
      (ringNodes 1).filter (fun n => admissible st cur prev n)
    else []
  else if isPlayer && c = numCircles - 1 then
    if dice > 1 then
      let ni := (((i : Int) + circleDirections c * (dice : Int)) % (nodesPerCircle : Int)).toNat
      let sameCircle := nodeAt c ni
      if admissible st cur prev sameCircle then [sameCircle] else []
    else
      let ai := (((i : Int) + circleDirections c) % (nodesPerCircle : Int)).toNat
      let adj := nodeAt c ai
      let l1 := if admissible st cur prev adj then [adj] else []
      let l2 := match prev with
                | some p => if l1.contains p then l1 else l1 ++ [p]
                | none => l1
      if c > 0 then
        let inner := nodeAt (c - 1) i
        if admissible st cur prev inner then l2 ++ [inner] else l2
      else l2
  else
    let ni := (((i : Int) + circleDirections c * (dice : Int)) % (nodesPerCircle : Int)).toNat
    let sameCircle := nodeAt c ni
    let l1 := if admissible st cur prev sameCircle then [sameCircle] else []
    if dice = 1 then
      let l2 :=
        if c > 0 then
          let inner := if c = 1 then centerNode else nodeAt (c - 1) i
          if admissible st cur prev inner then l1 ++ [inner] else l1
        else l1
      if c < numCircles - 1 then
        let outer := nodeAt (c + 1) i
        if isPlayer && c = numCircles - 2 then
          if matchesPrev prev outer then l2 ++ [outer]
          else
            let occPlayer := st.playerPieces.any
              (fun p => coordEq outer p && !coordEq cur p)
            let occEnemy := st.foxPieces.any (fun f => coordEq outer f) ||
              st.snakePieces.any (fun s => coordEq outer s)
            if !occPlayer && !occEnemy then l2 ++ [outer] else l2
        else l2
      else l2
    else l1

/-- Board.get_connected_nodes. -/
def getConnectedNodes (st : BoardState) (cur : Node) (isPlayer : Bool)
    (prev : Option Node) : List Node :=
  let c := cur.ring
  let i := cur.idx
  if c = 0 then
    (ringNodes 1).filter (fun n => admissible st cur prev n)
  else if isPlayer && c = numCircles - 1 then
    let ai := (((i : Int) + circleDirections c) % (nodesPerCircle : Int)).toNat
    let adj := nodeAt c ai
    let occPlayer := st.playerPieces.any (fun p => coordEq adj p && !coordEq cur p)
    let occEnemy := st.foxPieces.any (fun f => coordEq adj f) ||
      st.snakePieces.any (fun s => coordEq adj s)
    let l1 := if !occPlayer && !occEnemy then [adj] else []
    let l2 := match prev with
              | some p => if l1.contains p then l1 else l1 ++ [p]
              | none => l1
    if c > 0 then
      let inner := nodeAt (c - 1) i
      if admissible st cur prev inner then l2 ++ [inner] else l2
    else l2
  else
    (let ni := (((i : Int) + circleDirections c) % (nodesPerCircle : Int)).toNat
     let next := nodeAt c ni
     if admissible st cur prev next then [next] else []) ++
    (if c > 0 then
       let inner := if c = 1 then centerNode else nodeAt (c - 1) i
       if admissible st cur prev inner then [inner] else []
     else []) ++
    (if c < numCircles - 1 then
       let outer := nodeAt (c + 1) i
       if isPlayer && c = numCircles - 2 then
         if matchesPrev prev outer then [outer]
         else
           let occPlayer := st.playerPieces.any
             (fun p => decide (p = outer) && decide (cur ≠ p))
           let occEnemy := st.foxPieces.any (fun f => coordEq outer f) ||
             st.snakePieces.any (fun s => coordEq outer s)
           if !occPlayer && !occEnemy then [outer] else []
       else if admissible st cur prev outer then [outer] else []
     else [])

/-- Squared Euclidean distance between two nodes; stands for the float
distance of the source as explained in the header. -/
def dist2 (a b : Node) : Int :=
  (a.x - b.x) * (a.x - b.x) + (a.y - b.y) * (a.y - b.y)

/-- One iteration of the closest-node loop of
Board.move_piece_toward_player: the accumulator keeps the running
closest node and its (squared) distance, replaced on a strictly smaller
distance. -/
def closestStep (t : Node) (acc : Option (Node × Int)) (n : Node) : Option (Node × Int) :=
  match acc with
  | none => some (n, dist2 n t)
  | some (m, d) => if dist2 n t < d then some (n, dist2 n t) else some (m, d)

/-- The closest-node selection loop of Board.move_piece_toward_player. -/
def selectClosest (t : Node) (l : List Node) : Option Node :=
  (l.foldl (closestStep t) none).map Prod.fst

/-- The raw, occupancy-unfiltered one-hop candidates of
Board.move_piece_toward_player: directed same-ring neighbor, inward
neighbor, outward neighbor. -/
def rawCandidates (pn : Node) : List Node :=
  let c := pn.ring
  let i := pn.idx
  let ni := (((i : Int) + circleDirections c) % (ringSize c : Int)).toNat
  (getNodeOpt c ni).toList ++
  (if c > 0 then
     if c = 1 then [centerNode] else (getNodeOpt (c - 1) i).toList
   else []) ++
  (if c < numCircles - 1 then (getNodeOpt (c + 1) i).toList else [])

/-- The directed same-ring neighbor enumerated first by
Board.get_connected_nodes for a node off the center. -/
def sameRingStep (pn : Node) : Node :=
  nodeAt pn.ring ((((pn.idx : Int) + circleDirections pn.ring) % (nodesPerCircle : Int)).toNat)

/-- The inward radial neighbor enumerated second by
Board.get_connected_nodes for a node off the center. -/
def inwardStep (pn : Node) : Node :=
  if pn.ring = 1 then centerNode else nodeAt (pn.ring - 1) pn.idx

/-- The outward radial neighbor enumerated last by
Board.get_connected_nodes. -/
def outwardStep (pn : Node) : Node := nodeAt (pn.ring + 1) pn.idx

/-- The piece collection selected by piece_list (fox_pieces when isFox,
snake_pieces otherwise). -/
def pieceList (st : BoardState) (isFox : Bool) : List Node :=
  if isFox then st.foxPieces else st.snakePieces

/-- Replace the selected piece collection. -/
def setPieceList (st : BoardState) (isFox : Bool) (l : List Node) : BoardState :=
  if isFox then { st with foxPieces := l } else { st with snakePieces := l }

/-- Board.move_piece_toward_player: returns the destination node and the
board state with the piece collection updated. -/
def movePieceTowardPlayer (st : BoardState) (isFox : Bool) (pieceNode playerNode : Node) :
    Node × BoardState :=
  let raw := rawCandidates pieceNode
  match raw.find? (fun n => coordEq n playerNode) with
  | some n =>
      let l := pieceList st isFox
      let i := l.indexOf pieceNode
      (n, setPieceList st isFox (l.set i n))
  | none =>
      let l := pieceList st isFox
      let i := l.indexOf pieceNode
      let popped := l.eraseIdx i
      let conn := getConnectedNodes (setPieceList st isFox popped) pieceNode false none
      let restored := popped.insertIdx i pieceNode
      if conn.isEmpty then (pieceNode, setPieceList st isFox restored)
      else
        match selectClosest playerNode conn with
        | some closest => (closest, setPieceList st isFox (restored.set i closest))
        | none => (pieceNode, setPieceList st isFox restored)

/-- Board snake special-node flag per setup_special_nodes: even positions
of the outermost circle. -/
def isSnakeNode (n : Node) : Bool := n.ring = numCircles - 1 && n.idx % 2 = 0

/-- Warp target of a snake special node: the ring-inward node at the same
position. -/
def snakeTarget (n : Node) : Node := nodeAt (numCircles - 2) n.idx

/-- Board fox special-node flag per setup_special_nodes: odd positions of
the outermost circle. -/
def isFoxNode (n : Node) : Bool := n.ring = numCircles - 1 && n.idx % 2 = 1

/-- Board.apply_special_effect: the snake target for a snake node, the node
itself for a fox node (fox_target is the node itself), else the node. -/
def applySpecialEffect (n : Node) : Node :=
  if isSnakeNode n then snakeTarget n
  else if isFoxNode n then n
  else n

/-- The final-position logic of Player.update once a move animation to
target t completes: take the special-effect node unless doing so would move
the player off the outermost ring. -/
def playerUpdatePosition (t : Node) : Node :=
  let effect := applySpecialEffect t
  if !(t.ring = numCircles - 1 && effect.ring ≠ numCircles - 1) then effect else t

/-- Player token state (the logic-relevant fields of player.py Player;
animation interpolation data is external rendering state). -/
structure PState where
  currentNode : Node
  previousNode : Option Node
  turnCount : Nat
  hasReachedOuter : Bool
  validMoves : List Node
  pieces : Int
  active : Bool
  isMoving : Bool
  targetNode : Option Node
deriving DecidableEq, Repr

/-- A freshly constructed player token: at the center with two pieces. -/
def initPState : PState :=
  { currentNode := centerNode, previousNode := none, turnCount := 0,
    hasReachedOuter := false, validMoves := [], pieces := 2, active := true,
    isMoving := false, targetNode := none }

/-- Player.lose_piece: decrement the piece count, deactivate immediately,
return whether all pieces are lost (pieces <= 0). -/
def losePiece (p : PState) : PState × Bool :=
  ({ p with pieces := p.pieces - 1, active := false }, decide (p.pieces - 1 ≤ 0))

/-- Player.can_win. -/
def canWin (p : PState) : Bool := p.hasReachedOuter && p.currentNode == centerNode

/-- Player.move_to_node: admit any target (appending it to valid_moves if
absent), remember the vacated node, set the outer-ring flag if the target
is on the outermost circle, and start the move animation (is_moving,
target_node); the current node is updated only when the animation
completes. -/
def moveToNode (p : PState) (t : Node) : PState :=
  let vm := if p.validMoves.contains t then p.validMoves else p.validMoves ++ [t]
  { p with validMoves := vm,
           previousNode := some p.currentNode,
           hasReachedOuter := p.hasReachedOuter || decide (t.ring = numCircles - 1),
           isMoving := true,
           targetNode := some t }

/-- The per-phase turn label game.current_turn. -/
inductive Turn where
  | white | black | foxes | snakes
deriving DecidableEq, Repr

/-- Game state (game.py Game): the logic-relevant fields; display-message
flags, fonts and screen geometry are rendering state and external. -/
structure GState where
  board : BoardState
  player1 : PState
  player2 : PState
  curIsP1 : Bool
  gameOver : Bool
  winner : Option Bool
  diceRolled : Bool
  movesRemaining : Int
  blackPips : Nat
  redTriangles : Nat
  greenSquiggles : Nat
  foxMovementActive : Bool
  snakeMovementActive : Bool
  foxMovementTimer : Int
  snakeMovementTimer : Int
  foxesToMove : List Node
  snakesToMove : List Node
  currentFoxIndex : Nat
  currentSnakeIndex : Nat
  currentTurn : Turn
deriving DecidableEq, Repr

/-- Game.movement_delay. -/
def movementDelay : Int := 50

/-- Game.max_turns. -/
def maxTurns : Nat := 100

def curPlayer (g : GState) : PState := if g.curIsP1 then g.player1 else g.player2

def setCurPlayer (g : GState) (p : PState) : GState :=
  if g.curIsP1 then { g with player1 := p } else { g with player2 := p }

/-- Game.update_player_pieces: rebuild board.player_pieces from the active
tokens and end the game with no winner when both tokens are inactive. -/
def updatePlayerPieces (g : GState) : GState :=
  let pp := (if g.player1.active then [g.player1.currentNode] else []) ++
            (if g.player2.active then [g.player2.currentNode] else [])
  let g1 := { g with board := { g.board with playerPieces := pp } }
  if !g1.player1.active && !g1.player2.active then
    { g1 with gameOver := true, winner := none }
  else g1

/-- Game.check_game_conditions: the win check runs first, then the
max-turns loss check, which overwrites the winner when it fires. -/
def checkGameConditions (g : GState) : GState :=
  let g1 := if canWin (curPlayer g) then
              { g with gameOver := true, winner := some g.curIsP1 }
            else g
  if g1.player1.turnCount + g1.player2.turnCount ≥ maxTurns then
    { g1 with gameOver := true, winner := none }
  else g1

/-- Game.switch_player: alternate to the other token only if it is active,
then refresh the board piece list. -/
def switchPlayer (g : GState) : GState :=
  let g1 :=
    if g.curIsP1 then
      if g.player2.active then { g with curIsP1 := false, currentTurn := Turn.black } else g
    else
      if g.player1.active then { g with curIsP1 := true, currentTurn := Turn.white } else g
  updatePlayerPieces g1

/-- Stable insertion of a node into a distance-sorted list: an element goes
after every element of strictly smaller key and after earlier elements of
equal key. -/
def insertByDist (t : Node) (x : Node) : List Node → List Node
  | [] => [x]
  | y :: ys => if dist2 y t < dist2 x t then y :: insertByDist t x ys else x :: y :: ys

/-- Board.find_closest_pieces: sort the pieces by distance to the target,
closest first.  The source sorts float distances with Python's stable sort;
a stable sort of distinct-on-ties-by-original-index keys has a unique
output, so this stable insertion sort produces the same list. -/
def findClosestPieces (pieces : List Node) (target : Node) : List Node :=
  pieces.foldr (insertByDist target) []

/-- Game.activate_snake_movement. -/
def activateSnakeMovement (g : GState) : GState :=
  let toMove := (findClosestPieces g.board.snakePieces (curPlayer g).currentNode).take
    g.greenSquiggles
  let g1 := { g with snakesToMove := toMove }
  if toMove.isEmpty then
    switchPlayer { g1 with diceRolled := false }
  else
    { g1 with snakeMovementActive := true, snakeMovementTimer := movementDelay,
              currentSnakeIndex := 0, currentTurn := Turn.snakes }

/-- Game.activate_fox_movement. -/
def activateFoxMovement (g : GState) : GState :=
  let toMove := (findClosestPieces g.board.foxPieces (curPlayer g).currentNode).take
    g.redTriangles
  let g1 := { g with foxesToMove := toMove }
  if toMove.isEmpty then
    if g1.greenSquiggles > 0 then activateSnakeMovement g1
    else switchPlayer { g1 with diceRolled := false }
  else
    { g1 with foxMovementActive := true, foxMovementTimer := movementDelay,
              currentFoxIndex := 0, currentTurn := Turn.foxes }

/-- Game.move_player: start the move of the current player and refresh the
board piece list (the token's current node is still the vacated one until
the animation completes). -/
def movePlayer (g : GState) (t : Node) : GState :=
  updatePlayerPieces (setCurPlayer g (moveToNode (curPlayer g) t))

/-- The capture bookkeeping shared by both pursuit steps when the moved
piece lands on the pursued player's coordinates: the current player loses
a piece; the game ends with no winner when it was their last. -/
def captureCurrentPlayer (g : GState) : GState :=
  let r := losePiece (curPlayer g)
  let g1 := updatePlayerPieces (setCurPlayer g r.1)
  if r.2 then { g1 with gameOver := true, winner := none } else g1

/-- The player-1 block of the center-capture logic of move_next_fox and
move_next_snake: when player 1 is active at the center, it loses a piece,
and the game ends with no winner when this was the current player's last
piece; the flag records that a capture happened. -/
def captureCenterP1 (g : GState) : GState × Bool :=
  if g.player1.active && g.player1.currentNode == centerNode then
    let r := losePiece g.player1
    let g1 := { g with player1 := r.1 }
    (if r.2 && g1.curIsP1 then { g1 with gameOver := true, winner := none } else g1, true)
  else (g, false)

/-- The player-2 block of the center-capture logic, run on the state left
by the player-1 block. -/
def captureCenterP2 (g : GState) (captured : Bool) : GState × Bool :=
  if g.player2.active && g.player2.currentNode == centerNode then
    let r := losePiece g.player2
    let g2 := { g with player2 := r.1 }
    (if r.2 && !g2.curIsP1 then { g2 with gameOver := true, winner := none } else g2, true)
  else (g, captured)

/-- The capture bookkeeping shared by both pursuit steps when the moved
piece lands on the center node (and not on the pursued player): each active
player token currently at the center loses a piece; the game ends with no
winner when the current player ran out of pieces; the board piece list is
refreshed when anything was captured. -/
def captureCenter (g : GState) : GState :=
  let s1 := captureCenterP1 g
  let s2 := captureCenterP2 s1.1 s1.2
  if s2.2 then updatePlayerPieces s2.1 else s2.1

/-- Game.move_next_fox. -/
def moveNextFox (g : GState) : GState :=
  match g.foxesToMove.get? g.currentFoxIndex with
  | some foxNode =>
      let playerNode := (curPlayer g).currentNode
      let mv := movePieceTowardPlayer g.board true foxNode playerNode
      let g1 := { g with board := mv.2 }
      let g2 :=
        if coordEq mv.1 playerNode then captureCurrentPlayer g1
        else if mv.1 = centerNode then captureCenter g1
        else g1
      { g2 with currentFoxIndex := g2.currentFoxIndex + 1,
                foxMovementTimer := movementDelay }
  | none =>
      let g1 := { g with foxMovementActive := false }
      if g1.greenSquiggles > 0 then activateSnakeMovement g1
      else switchPlayer { g1 with diceRolled := false }

/-- Game.move_next_snake. -/
def moveNextSnake (g : GState) : GState :=
  match g.snakesToMove.get? g.currentSnakeIndex with
  | some snakeNode =>
      let playerNode := (curPlayer g).currentNode
      let mv := movePieceTowardPlayer g.board false snakeNode playerNode
      let g1 := { g with board := mv.2 }
      let g2 :=
        if coordEq mv.1 playerNode then captureCurrentPlayer g1
        else if mv.1 = centerNode then captureCenter g1
        else g1
      { g2 with currentSnakeIndex := g2.currentSnakeIndex + 1,
                snakeMovementTimer := movementDelay }
  | none =>
      let g1 := { g with snakeMovementActive := false }
      switchPlayer { g1 with diceRolled := false }

/-- The destination-selection part of Game.handle_event: a mouse click
while a roll is pending resolves to an optional clicked node; a node inside
the current legal-move set starts the move, decrements moves_remaining,
checks the game conditions and, when the moves run out, hands over to the
pursuit phases; any other selection (including a click on no node) leaves
the state untouched.  In the game-over state a click does nothing (only
the restart key is handled there). -/
def handleSelect (g : GState) (sel : Option Node) : GState :=
  if g.gameOver then g
  else if g.diceRolled && !(curPlayer g).isMoving then
    match sel with
    | some n =>
        if (curPlayer g).validMoves.contains n then
          let g1 := movePlayer g n
          let g2 := { g1 with movesRemaining := g1.movesRemaining - 1 }
          let g3 := checkGameConditions g2
          if g3.gameOver then { g3 with diceRolled := false }
          else if g3.movesRemaining ≤ 0 then
            if g3.redTriangles > 0 then activateFoxMovement g3
            else if g3.greenSquiggles > 0 then activateSnakeMovement g3
            else switchPlayer { g3 with diceRolled := false }
          else g3
        else g
    | none => g
  else g

/-- An empty piece configuration. -/
def emptyBoard : BoardState := ⟨[], [], []⟩

/-- A concrete base game state with both fresh players at the center and no
pursuit pieces, used to build test configurations. -/
def baseG : GState :=
  { board := emptyBoard, player1 := initPState, player2 := initPState,
    curIsP1 := true, gameOver := false, winner := none, diceRolled := false,
    movesRemaining := 0, blackPips := 0, redTriangles := 0, greenSquiggles := 0,
    foxMovementActive := false, snakeMovementActive := false,
    foxMovementTimer := 0, snakeMovementTimer := 0, foxesToMove := [],
    snakesToMove := [], currentFoxIndex := 0, currentSnakeIndex := 0,
    currentTurn := Turn.white }

/-- Both players at the center, a single fox on ring 1 position 0 queued to
move, player 1 to act. -/
def gCenterBoth : GState :=
  { baseG with
    board := ⟨[centerNode, centerNode], [nodeAt 1 0], []⟩,
    foxesToMove := [nodeAt 1 0], foxMovementActive := true,
    currentTurn := Turn.foxes }

/-- Current player 1 on ring 1 position 5, player 2 at the center, a single
fox on ring 1 position 0 queued to move. -/
def gFoxToCenter : GState :=
  { baseG with
    player1 := { initPState with currentNode := nodeAt 1 5 },
    board := ⟨[nodeAt 1 5, centerNode], [nodeAt 1 0], []⟩,
    foxesToMove := [nodeAt 1 0], foxMovementActive := true,
    currentTurn := Turn.foxes }

/-- Current player 1 on ring 1 position 5, player 2 at the center, a single
snake on ring 1 position 0 queued to move. -/
def gSnakeToCenter : GState :=
  { baseG with
    player1 := { initPState with currentNode := nodeAt 1 5 },
    board := ⟨[nodeAt 1 5, centerNode], [], [nodeAt 1 0]⟩,
    snakesToMove := [nodeAt 1 0], snakeMovementActive := true,
    currentTurn := Turn.snakes }

/-- A state in which the current player has fulfilled the win condition
while the combined turn counter has just reached the maximum. -/
def gWinAtMax : GState :=
  { baseG with
    player1 := { initPState with hasReachedOuter := true, turnCount := 50 },
    player2 := { initPState with turnCount := 50 } }

/-- A state in which the current player has fulfilled the win condition
with the combined turn counter still below the maximum. -/
def gWinEarly : GState :=
  { baseG with
    player1 := { initPState with hasReachedOuter := true, turnCount := 3 },
    player2 := { initPState with turnCount := 4 } }

/-- A state awaiting a destination selection: dice rolled, one legal move. -/
def gAwaitSelect : GState :=
  { baseG with
    diceRolled := true
    movesRemaining := 2
    player1 := { initPState with validMoves := [nodeAt 1 0] } }

/-- Piece configuration with the current player token on ring 1 position 5
and one fox on ring 1 position 0. -/
def stPursuit : BoardState := ⟨[nodeAt 1 5], [nodeAt 1 0], []⟩

/-- Piece configuration with the current player token at the center and one
fox on ring 1 position 0 (one hop away). -/
def stAdjacent : BoardState := ⟨[centerNode], [nodeAt 1 0], []⟩

/-! Helper lemmas. -/

/-- On this board the coordinate pair determines the node: the equality and
hash of BoardNode, and every coordinate-only comparison in the source,
agree on board nodes. -/
theorem coordEq_inj :
    ∀ a ∈ allNodes, ∀ b ∈ allNodes, coordEq a b = true → a = b := by decide

theorem coordEq_refl (a : Node) : coordEq a a = true := by
  simp [coordEq]

theorem mkNode_mem_allNodes (c i : Nat) (hc1 : 1 ≤ c) (hc : c < 6) (hi : i < 10) :
    mkNode c i ∈ allNodes := by
  have hm : mkNode c i ∈ ringNodes c := List.mem_map.2 ⟨i, List.mem_range.2 hi, rfl⟩
  have hb : ringNodes c ∈ boardNodes := by
    interval_cases c <;> simp [boardNodes]
  exact List.mem_flatten.2 ⟨ringNodes c, hb, hm⟩

theorem nodeAt_mem_allNodes (c i : Nat) (hc : c < numCircles) :
    nodeAt c i ∈ allNodes := by
  by_cases h0 : c = 0
  · subst h0
    exact (by decide : centerNode ∈ allNodes)
  · have hc6 : c < 6 := hc
    have he : nodeAt c i = mkNode c (i % nodesPerCircle) := by simp [nodeAt, h0]
    rw [he]
    exact mkNode_mem_allNodes c _ (Nat.one_le_iff_ne_zero.2 h0) hc6
      (Nat.mod_lt _ (by decide))

theorem getNodeOpt_mem {c i : Nat} {n : Node} (h : getNodeOpt c i = some n) :
    n ∈ allNodes := by
  unfold getNodeOpt at h
  by_cases hc : c < numCircles
  · rw [if_pos hc] at h
    cases h
    exact nodeAt_mem_allNodes c i hc
  · rw [if_neg hc] at h
    cases h

theorem rawCandidates_subset {pn : Node} :
    ∀ n ∈ rawCandidates pn, n ∈ allNodes := by
  intro n hn
  unfold rawCandidates at hn
  rcases List.mem_append.1 hn with h | h
  · rcases List.mem_append.1 h with h1 | h1
    · rcases Option.mem_toList.1 h1 with h2
      exact getNodeOpt_mem h2
    · by_cases h0 : pn.ring > 0
      · rw [if_pos h0] at h1
        by_cases h2 : pn.ring = 1
        · rw [if_pos h2] at h1
          simp at h1
          subst h1
          exact (by decide : centerNode ∈ allNodes)
        · rw [if_neg h2] at h1
          exact getNodeOpt_mem (Option.mem_toList.1 h1)
      · rw [if_neg h0] at h1
        simp at h1
  · by_cases h2 : pn.ring < numCircles - 1
    · rw [if_pos h2] at h
      exact getNodeOpt_mem (Option.mem_toList.1 h)
    · rw [if_neg h2] at h
      simp at h

theorem eraseIdx_insertIdx_restore :
    ∀ (l : List Node) (i : Nat) (x : Node), l.get? i = some x →
      (l.eraseIdx i).insertIdx i x = l
  | [], i, x, h => by simp at h
  | a :: l, 0, x, h => by
      simp at h
      subst h
      rfl
  | a :: l, i + 1, x, h => by
      simp only [List.get?_cons_succ] at h
      simp only [List.eraseIdx_cons_succ, List.insertIdx_succ_cons]
      rw [eraseIdx_insertIdx_restore l i x h]

theorem setPieceList_pieceList (st : BoardState) (isFox : Bool) :
    setPieceList st isFox (pieceList st isFox) = st := by
  cases isFox <;> simp [setPieceList, pieceList]

/-- The closest-node loop invariant: starting from a current best m, the
fold either keeps m (when nothing in the list is strictly closer) or ends
at the first element r strictly closer than everything before it and at
least as close as everything after it. -/
theorem closest_fold (t : Node) :
    ∀ (l : List Node) (m : Node),
      (l.foldl (closestStep t) (some (m, dist2 m t)) = some (m, dist2 m t) ∧
        ∀ a ∈ l, dist2 m t ≤ dist2 a t) ∨
      (∃ r l₁ l₂, l = l₁ ++ r :: l₂ ∧
        l.foldl (closestStep t) (some (m, dist2 m t)) = some (r, dist2 r t) ∧
        dist2 r t < dist2 m t ∧ (∀ a ∈ l₁, dist2 r t < dist2 a t) ∧
        (∀ a ∈ l₂, dist2 r t ≤ dist2 a t))
  | [], m => Or.inl ⟨rfl, by simp⟩
  | a :: l, m => by
      rw [List.foldl_cons]
      by_cases h : dist2 a t < dist2 m t
      · rw [show closestStep t (some (m, dist2 m t)) a = some (a, dist2 a t) by
          simp [closestStep, h]]
        rcases closest_fold t l a with ⟨hf, hall⟩ | ⟨r, l₁, l₂, hl, hf, hlt, h₁, h₂⟩
        · exact Or.inr ⟨a, [], l, rfl, hf, h, by simp, hall⟩
        · refine Or.inr ⟨r, a :: l₁, l₂, by simp [hl], hf, lt_trans hlt h, ?_, h₂⟩
          intro b hb
          rcases List.mem_cons.1 hb with hb | hb
          · subst hb; exact hlt
          · exact h₁ b hb
      · rw [show closestStep t (some (m, dist2 m t)) a = some (m, dist2 m t) by
          simp [closestStep, h]]
        rcases closest_fold t l m with ⟨hf, hall⟩ | ⟨r, l₁, l₂, hl, hf, hlt, h₁, h₂⟩
        · refine Or.inl ⟨hf, ?_⟩
          intro b hb
          rcases List.mem_cons.1 hb with hb | hb
          · subst hb; exact le_of_not_lt h
          · exact hall b hb
        · refine Or.inr ⟨r, a :: l₁, l₂, by simp [hl], hf, hlt, ?_, h₂⟩
          intro b hb
          rcases List.mem_cons.1 hb with hb | hb
          · subst hb; exact lt_of_lt_of_le hlt (le_of_not_lt h)
          · exact h₁ b hb

/-- The closest-node loop returns the first element of the list attaining
the minimum distance to the target. -/
theorem selectClosest_spec (t : Node) (l : List Node) (hne : l ≠ []) :
    ∃ r l₁ l₂, selectClosest t l = some r ∧ l = l₁ ++ r :: l₂ ∧
      (∀ a ∈ l₁, dist2 r t < dist2 a t) ∧ (∀ a ∈ l₂, dist2 r t ≤ dist2 a t) := by
  cases l with
  | nil => exact absurd rfl hne
  | cons a l =>
      have hstep : closestStep t none a = some (a, dist2 a t) := rfl
      rcases closest_fold t l a with ⟨hf, hall⟩ | ⟨r, l₁, l₂, hl, hf, hlt, h₁, h₂⟩
      · refine ⟨a, [], l, ?_, rfl, by simp, hall⟩
        simp [selectClosest, hstep, hf]
      · refine ⟨r, a :: l₁, l₂, ?_, by simp [hl], ?_, h₂⟩
        · simp [selectClosest, hstep, hf]
        · intro b hb
          rcases List.mem_cons.1 hb with hb | hb
          · subst hb; exact hlt
          · exact h₁ b hb

/-! Claim theorems. -/

/-- Claim C7 (confirmed): for every node of the board, the position-update
logic of Player.update leaves the player on the node it moved to: special
effects exist only on the outermost ring, odd-position fox effects target
the node itself, and the suppression clause blocks every even-position
snake warp (whose target is off the outermost ring). -/
theorem player_position_unchanged_by_effects :
    ∀ n ∈ allNodes, playerUpdatePosition n = n := by decide

theorem player_position_unchanged_by_effects_witness :
    nodeAt 5 0 ∈ allNodes ∧ playerUpdatePosition (nodeAt 5 0) = nodeAt 5 0 :=
  ⟨by decide, player_position_unchanged_by_effects (nodeAt 5 0) (by decide)⟩

/-- Claim C8 (confirmed): lose_piece decrements the piece count,
deactivates the token immediately on any loss, and returns whether the
count has reached zero (the source test pieces at most 0, equivalent to
reaching exactly 0 from the positive counts arising in play); on a fresh
token it returns false, leaves one piece, and clears the active flag. -/
theorem losePiece_spec :
    (∀ p : PState, (losePiece p).1.pieces = p.pieces - 1 ∧
      (losePiece p).1.active = false ∧
      ((losePiece p).2 = true ↔ p.pieces - 1 ≤ 0) ∧
      (1 ≤ p.pieces → ((losePiece p).2 = true ↔ (losePiece p).1.pieces = 0))) ∧
    losePiece initPState = ({ initPState with pieces := 1, active := false }, false) := by
  constructor
  · intro p
    refine ⟨rfl, rfl, by simp [losePiece], ?_⟩
    intro h
    simp only [losePiece, decide_eq_true_eq]
    omega
  · rfl

theorem losePiece_spec_witness :
    (losePiece initPState).2 = false ∧ (losePiece initPState).1.pieces = 1 ∧
    (losePiece initPState).1.active = false := by
  have h := losePiece_spec.1 initPState
  refine ⟨?_, by simpa [initPState] using h.1, h.2.1⟩
  have h4 := (h.2.2.2 (by simp [initPState])).mp
  simp only [losePiece, decide_eq_true_eq, initPState]
  decide

/-- Claim C10 (confirmed): Player.move_to_node validates nothing: any
target is accepted (appended to the valid-move list when absent), the
previous node becomes the vacated node, the outer-ring flag is set already
at move start when the target is on the outermost ring, and the move is
merely begun (the current node is untouched until the animation ends). -/
theorem moveToNode_no_validation (p : PState) (t : Node) :
    (moveToNode p t).previousNode = some p.currentNode ∧
    (moveToNode p t).currentNode = p.currentNode ∧
    (moveToNode p t).isMoving = true ∧
    (moveToNode p t).targetNode = some t ∧
    (p.validMoves.contains t = true → (moveToNode p t).validMoves = p.validMoves) ∧
    (p.validMoves.contains t = false → (moveToNode p t).validMoves = p.validMoves ++ [t]) ∧
    (t.ring = numCircles - 1 → (moveToNode p t).hasReachedOuter = true) ∧
    (t.ring ≠ numCircles - 1 → (moveToNode p t).hasReachedOuter = p.hasReachedOuter) := by
  refine ⟨rfl, rfl, rfl, rfl, ?_, ?_, ?_, ?_⟩
  · intro h
    simp only [moveToNode]
    rw [h]
    simp
  · intro h
    simp only [moveToNode]
    rw [h]
    simp
  · intro h
    simp only [moveToNode]
    rw [h]
    simp
  · intro h
    simp only [moveToNode]
    simp [h]

theorem moveToNode_no_validation_witness :
    (moveToNode initPState (nodeAt 5 0)).hasReachedOuter = true ∧
    (moveToNode initPState (nodeAt 5 0)).validMoves = [nodeAt 5 0] ∧
    (moveToNode initPState (nodeAt 5 0)).previousNode = some centerNode := by
  have h := moveToNode_no_validation initPState (nodeAt 5 0)
  exact ⟨h.2.2.2.2.2.2.1 (by decide),
    by simpa [initPState] using h.2.2.2.2.2.1 (by decide),
    by simpa [initPState] using h.1⟩

/-- Claim C4 counterexample: a position lookup inside the valid ring range
raises: get_node(0, 1) indexes the single-node center row at position
1 mod 10 = 1 and fails with an IndexError (modelled by the none result)
instead of returning a node, because the position is normalized modulo
nodes_per_circle rather than the actual ring size. -/
theorem getNode_ring0_raises : getNodeRes 0 1 = none := by decide

theorem getNodeRes_ring_pos (c : Nat) (hc1 : 1 ≤ c) (hc : c < 6) (p : Int) :
    getNodeRes (c : Int) p = some (some (mkNode c (p % 10).toNat)) := by
  have hm0 : 0 ≤ p % 10 := Int.emod_nonneg p (by norm_num)
  have hm10 : p % 10 < 10 := Int.emod_lt_of_pos p (by norm_num)
  have hj : (p % 10).toNat < 10 := by omega
  have hcond : 0 ≤ (c : Int) ∧ (c : Int) < ((numCircles : Nat) : Int) := by
    refine ⟨Int.natCast_nonneg c, ?_⟩
    have h6 : numCircles = 6 := rfl
    rw [h6]
    exact_mod_cast hc
  have htn : ((c : Int)).toNat = c := Int.toNat_natCast c
  have hrow : boardNodes.get? ((c : Int)).toNat = some (ringNodes c) := by
    rw [htn]
    interval_cases c <;> rfl
  have hget : (ringNodes c).get? (p % 10).toNat =
      some (mkNode c (p % 10).toNat) := by
    rw [ringNodes, List.get?_eq_getElem?, List.getElem?_map]
    simp [nodesPerCircle, hj]
  unfold getNodeRes
  rw [if_pos hcond, hrow]
  simp only [Option.some_bind, hget]

/-- Claim C4 (corrected): for rings 1..5 every integer position succeeds
after normalization modulo the ring size, with the period-10 wraparound
identity; ring indices outside [0, 6) give the explicit no-node result;
but on ring 0 the lookup only succeeds at positions that are 0 modulo 10,
raising an IndexError otherwise, so the claimed totality over all of
[0, N_rings) fails at ring 0. -/
theorem getNode_total_amended :
    (∀ c p : Int, 1 ≤ c → c < 6 →
      getNodeRes c p = some (some (mkNode c.toNat (p % 10).toNat)) ∧
      getNodeRes c (p + 10) = getNodeRes c p) ∧
    (∀ c p : Int, c < 0 ∨ 6 ≤ c → getNodeRes c p = some none) ∧
    (∀ p : Int, (p % 10 = 0 → getNodeRes 0 p = some (some centerNode)) ∧
      (p % 10 ≠ 0 → getNodeRes 0 p = none)) := by
  refine ⟨?_, ?_, ?_⟩
  · intro c p h1 h6
    have hc1 : 1 ≤ c.toNat := by omega
    have hc6 : c.toNat < 6 := by omega
    have hcast : ((c.toNat : Nat) : Int) = c := by omega
    constructor
    · rw [← hcast]
      exact getNodeRes_ring_pos c.toNat hc1 hc6 p
    · rw [← hcast, getNodeRes_ring_pos c.toNat hc1 hc6 p,
        getNodeRes_ring_pos c.toNat hc1 hc6 (p + 10)]
      have hper : (p + 10) % 10 = p % 10 := by
        have h1 : p + 10 = p + 10 * 1 := by ring
        rw [h1, Int.add_mul_emod_self_left]
      rw [hper]
  · intro c p h
    unfold getNodeRes
    rw [if_neg]
    have h6 : ((numCircles : Nat) : Int) = 6 := rfl
    rw [h6]
    omega
  · intro p
    constructor
    · intro h0
      unfold getNodeRes
      rw [if_pos (by constructor <;> norm_num [numCircles])]
      rw [show ((0 : Int)).toNat = 0 from rfl, h0]
      rfl
    · intro h0
      have hm0 : 0 ≤ p % 10 := Int.emod_nonneg p (by norm_num)
      obtain ⟨k, hk⟩ : ∃ k : Nat, (p % 10).toNat = k + 1 := by
        have : (p % 10).toNat ≠ 0 := by omega
        exact ⟨(p % 10).toNat - 1, by omega⟩
      unfold getNodeRes
      rw [if_pos (by constructor <;> norm_num [numCircles])]
      rw [show ((0 : Int)).toNat = 0 from rfl, hk]
      rfl

theorem getNode_total_amended_witness :
    getNodeRes 2 13 = some (some (mkNode 2 3)) ∧
    getNodeRes 2 23 = getNodeRes 2 13 ∧
    getNodeRes 7 0 = some none ∧
    getNodeRes 0 20 = some (some centerNode) := by
  have h13 := (getNode_total_amended.1 2 13 (by norm_num) (by norm_num)).1
  have hper := (getNode_total_amended.1 2 13 (by norm_num) (by norm_num)).2
  refine ⟨?_, ?_, ?_, ?_⟩
  · rw [h13]
    decide
  · exact_mod_cast hper
  · exact getNode_total_amended.2.1 7 0 (by norm_num)
  · exact (getNode_total_amended.2.2 20).1 (by decide)

/-- Claim C6 (corrected): after a player move, a true can_win() does end
the game, but the winner is that player only while the combined turn
counter is below the maximum; when the counter has reached the maximum on
the same move, the loss check runs second and overwrites the winner with
none, so the game ends with no winner rather than with that player. -/
theorem checkGameConditions_amended (g : GState) (hw : canWin (curPlayer g) = true) :
    (g.player1.turnCount + g.player2.turnCount < maxTurns →
      (checkGameConditions g).gameOver = true ∧
      (checkGameConditions g).winner = some g.curIsP1) ∧
    (g.player1.turnCount + g.player2.turnCount ≥ maxTurns →
      (checkGameConditions g).gameOver = true ∧
      (checkGameConditions g).winner = none) := by
  constructor
  · intro hlt
    unfold checkGameConditions
    rw [if_pos hw, if_neg (by simpa using Nat.not_le.2 hlt)]
    exact ⟨rfl, rfl⟩
  · intro hge
    unfold checkGameConditions
    rw [if_pos hw, if_pos (by simpa using hge)]
    exact ⟨rfl, rfl⟩

theorem checkGameConditions_amended_witness :
    canWin (curPlayer gWinEarly) = true ∧
    (checkGameConditions gWinEarly).gameOver = true ∧
    (checkGameConditions gWinEarly).winner = some true :=
  ⟨by decide, (checkGameConditions_amended gWinEarly (by decide)).1 (by decide)⟩

/-- Claim C6 counterexample: in gWinAtMax the current player satisfies
can_win() and the combined turn counter stands at the maximum after the
move; the claim asserts the game ends with that player as winner, but
check_game_conditions ends it with winner none. -/
theorem checkGameConditions_overwritten :
    canWin (curPlayer gWinAtMax) = true ∧
    gWinAtMax.player1.turnCount + gWinAtMax.player2.turnCount = maxTurns ∧
    (checkGameConditions gWinAtMax).gameOver = true ∧
    (checkGameConditions gWinAtMax).winner = none := by decide

/-- Claim C9 (confirmed): a selection event that names no node, or a node
outside the current player's legal-move set, is rejected silently by the
controller: the state after handle_event is the state before, so no move
starts, moves_remaining is unchanged, and no phase transition or any other
mutation occurs. -/
theorem handleSelect_invalid (g : GState) (sel : Option Node)
    (h : sel = none ∨ ∃ n, sel = some n ∧ (curPlayer g).validMoves.contains n = false) :
    handleSelect g sel = g := by
  unfold handleSelect
  split
  · rfl
  · split
    · rcases h with h | ⟨n, hn, hc⟩
      · rw [h]
      · rw [hn]
        simp only [hc]
        rfl
    · rfl

theorem handleSelect_invalid_witness :
    handleSelect gAwaitSelect (some (nodeAt 2 2)) = gAwaitSelect :=
  handleSelect_invalid gAwaitSelect (some (nodeAt 2 2))
    (Or.inr ⟨nodeAt 2 2, rfl, by decide⟩)

theorem ringNodes1_subset : ∀ n ∈ ringNodes 1, n ∈ allNodes := by decide

theorem ringNodes1_ring : ∀ n ∈ ringNodes 1, n.ring = 1 := by decide

/-- Claim C5 (confirmed): from the center the legal-move set is empty
unless the step count is 1; with step count 1 it is exactly the ring-1
nodes that are unblocked or equal to the previous node, and with no
blocking pieces on ring 1 it has nodes_per_circle members, all on
ring 1. -/
theorem centerMoves_spec (st : BoardState) (dice : Nat) (prev : Option Node)
    (hprev : ∀ p, prev = some p → p ∈ allNodes) :
    (dice ≠ 1 → getValidMoves st centerNode dice true prev = []) ∧
    (∀ n, n ∈ getValidMoves st centerNode 1 true prev ↔
      (n ∈ ringNodes 1 ∧
        (isNodeOccupied st n (some centerNode) = false ∨ prev = some n))) ∧
    ((∀ n ∈ ringNodes 1, isNodeOccupied st n (some centerNode) = false) →
      (getValidMoves st centerNode 1 true prev).length = nodesPerCircle ∧
      ∀ n ∈ getValidMoves st centerNode 1 true prev, n.ring = 1) := by
  have hbranch : ∀ d : Nat, getValidMoves st centerNode d true prev =
      if d = 1 then (ringNodes 1).filter (fun n => admissible st centerNode prev n)
      else [] := fun d => rfl
  refine ⟨?_, ?_, ?_⟩
  · intro hd
    rw [hbranch]
    simp [hd]
  · intro n
    rw [hbranch, if_pos rfl, List.mem_filter]
    constructor
    · rintro ⟨hm, hadm⟩
      refine ⟨hm, ?_⟩
      rcases Bool.or_eq_true_iff.1 hadm with h | h
      · exact Or.inl (by simpa using h)
      · right
        match prev, h with
        | some q, h =>
            have hq : q ∈ allNodes := hprev q rfl
            have : n = q := coordEq_inj n (ringNodes1_subset n hm) q hq h
            rw [this]
    · rintro ⟨hm, h⟩
      refine ⟨hm, ?_⟩
      rcases h with h | h
      · exact Bool.or_eq_true_iff.2 (Or.inl (by simp [h]))
      · refine Bool.or_eq_true_iff.2 (Or.inr ?_)
        rw [h]
        exact coordEq_refl n
  · intro hun
    have hfe : (ringNodes 1).filter (fun n => admissible st centerNode prev n) =
        ringNodes 1 := by
      apply List.filter_eq_self.2
      intro n hn
      exact Bool.or_eq_true_iff.2 (Or.inl (by simp [hun n hn]))
    rw [hbranch, if_pos rfl, hfe]
    exact ⟨by decide, ringNodes1_ring⟩

theorem centerMoves_spec_witness :
    getValidMoves emptyBoard centerNode 3 true none = [] ∧
    (getValidMoves emptyBoard centerNode 1 true none).length = nodesPerCircle := by
  have h := centerMoves_spec emptyBoard 3 none (fun p hp => by cases hp)
  exact ⟨h.1 (by decide), (h.2.2 (by decide)).1⟩

/-- Claim C3 (confirmed): whenever any raw (occupancy-unfiltered) one-hop
candidate of the pursuing piece carries the target player's coordinates,
move_piece_toward_player moves the piece onto the target node — the check
ignores the board occupancy entirely (the piece configuration st is
arbitrary here), so a pursuer one hop away always captures. -/
theorem pursuit_raw_capture (st : BoardState) (isFox : Bool) (piece player : Node)
    (hp : player ∈ allNodes)
    (hcap : ∃ n ∈ rawCandidates piece, coordEq n player = true) :
    (movePieceTowardPlayer st isFox piece player).1 = player := by
  obtain ⟨m, hfind⟩ : ∃ m,
      (rawCandidates piece).find? (fun n => coordEq n player) = some m := by
    rcases hfind2 : (rawCandidates piece).find? (fun n => coordEq n player) with _ | m
    · rcases hcap with ⟨n, hn, hc⟩
      have := List.find?_eq_none.1 hfind2 n hn
      simp [hc] at this
    · exact ⟨m, rfl⟩
  have hm : m ∈ rawCandidates piece := List.mem_of_find?_eq_some hfind
  have hcm : coordEq m player = true := by
    have := List.find?_some hfind
    simpa using this
  have hall : m ∈ allNodes := rawCandidates_subset m hm
  have hmp : m = player := coordEq_inj m hall player hp hcm
  unfold movePieceTowardPlayer
  simp only [hfind]
  exact hmp

theorem pursuit_raw_capture_witness :
    (movePieceTowardPlayer stAdjacent true (nodeAt 1 0) centerNode).1 = centerNode :=
  pursuit_raw_capture stAdjacent true (nodeAt 1 0) centerNode (by decide)
    ⟨centerNode, by decide, by decide⟩

theorem ite_singleton_sublist (c : Prop) [Decidable c] (l : List Node) (x : Node)
    (hl : l.Sublist [x]) : (if c then l else []).Sublist [x] := by
  split
  · exact hl
  · exact List.nil_sublist _

/-- For a pursuit piece (non-player mover) off the center, the connected
nodes are enumerated in the order same-ring neighbor, inward neighbor,
outward neighbor, each present at most once. -/
theorem getConnectedNodes_ordered (st : BoardState) (cur : Node) (prev : Option Node)
    (h : cur.ring ≠ 0) :
    (getConnectedNodes st cur false prev).Sublist
      [sameRingStep cur, inwardStep cur, outwardStep cur] := by
  have hpos : 0 < cur.ring := Nat.pos_of_ne_zero h
  simp only [getConnectedNodes, sameRingStep, inwardStep, outwardStep,
    Bool.false_and, Bool.false_eq_true, if_false, if_neg h, if_pos hpos]
  generalize nodeAt cur.ring ((((cur.idx : Int) + circleDirections cur.ring) %
    (nodesPerCircle : Int)).toNat) = x
  generalize (if cur.ring = 1 then centerNode else nodeAt (cur.ring - 1) cur.idx) = y
  generalize nodeAt (cur.ring + 1) cur.idx = z
  exact List.Sublist.append
    (List.Sublist.append
      (ite_singleton_sublist _ [x] x (List.Sublist.refl _))
      (ite_singleton_sublist _ [y] y (List.Sublist.refl _)))
    (ite_singleton_sublist _ _ z
      (ite_singleton_sublist _ [z] z (List.Sublist.refl _)))

theorem setPieceList_get (st : BoardState) (isFox : Bool) (l : List Node) :
    pieceList (setPieceList st isFox l) isFox = l := by
  cases isFox <;> simp [setPieceList, pieceList]

/-- Claim C2 (confirmed): when no raw candidate carries the target's
coordinates, move_piece_toward_player removes the piece from its own
collection, computes the connected nodes of its position in that reduced
state, restores the piece, and: with an empty connected set it stays put
with the whole state unchanged; otherwise it moves to the first connected
node attaining the minimum squared distance to the target (everything
enumerated before it is strictly farther, everything after at least as
far), updating exactly its own collection entry; the enumeration order of
the connected set is same-ring, then inward, then outward. -/
theorem pursuit_advance_spec (st : BoardState) (isFox : Bool) (piece player : Node)
    (hmem : piece ∈ pieceList st isFox)
    (hnocap : ∀ n ∈ rawCandidates piece, coordEq n player = false) :
    (getConnectedNodes (setPieceList st isFox
        ((pieceList st isFox).eraseIdx ((pieceList st isFox).indexOf piece)))
        piece false none = [] →
      movePieceTowardPlayer st isFox piece player = (piece, st)) ∧
    (getConnectedNodes (setPieceList st isFox
        ((pieceList st isFox).eraseIdx ((pieceList st isFox).indexOf piece)))
        piece false none ≠ [] →
      ∃ r l₁ l₂,
        movePieceTowardPlayer st isFox piece player =
          (r, setPieceList st isFox
            ((pieceList st isFox).set ((pieceList st isFox).indexOf piece) r)) ∧
        getConnectedNodes (setPieceList st isFox
          ((pieceList st isFox).eraseIdx ((pieceList st isFox).indexOf piece)))
          piece false none = l₁ ++ r :: l₂ ∧
        (∀ a ∈ l₁, dist2 r player < dist2 a player) ∧
        (∀ a ∈ l₂, dist2 r player ≤ dist2 a player)) ∧
    (piece.ring ≠ 0 →
      (getConnectedNodes (setPieceList st isFox
        ((pieceList st isFox).eraseIdx ((pieceList st isFox).indexOf piece)))
        piece false none).Sublist
        [sameRingStep piece, inwardStep piece, outwardStep piece]) := by
  have hfind : (rawCandidates piece).find? (fun n => coordEq n player) = none :=
    List.find?_eq_none.2 (fun n hn => by rw [hnocap n hn]; exact Bool.false_ne_true)
  have hidx : (pieceList st isFox).get? ((pieceList st isFox).indexOf piece) =
      some piece := by
    rw [List.get?_eq_getElem?]
    exact List.getElem?_indexOf hmem
  have hrestore : (((pieceList st isFox).eraseIdx
      ((pieceList st isFox).indexOf piece)).insertIdx
      ((pieceList st isFox).indexOf piece) piece) = pieceList st isFox :=
    eraseIdx_insertIdx_restore _ _ _ hidx
  refine ⟨?_, ?_, fun h0 => getConnectedNodes_ordered _ piece none h0⟩
  · intro hconn
    unfold movePieceTowardPlayer
    simp only [hfind, hconn, List.isEmpty_nil, if_pos]
    rw [hrestore, setPieceList_pieceList]
  · intro hconn
    obtain ⟨r, l₁, l₂, hsel, hdecomp, h₁, h₂⟩ :=
      selectClosest_spec player _ hconn
    refine ⟨r, l₁, l₂, ?_, hdecomp, h₁, h₂⟩
    have hie : (getConnectedNodes (setPieceList st isFox
        ((pieceList st isFox).eraseIdx ((pieceList st isFox).indexOf piece)))
        piece false none).isEmpty = false := List.isEmpty_eq_false.2 hconn
    unfold movePieceTowardPlayer
    simp only [hfind, hie, hrestore, hsel, Bool.false_eq_true, if_false]

theorem pursuit_advance_spec_witness :
    (nodeAt 1 0) ∈ pieceList stPursuit true ∧
    (∀ n ∈ rawCandidates (nodeAt 1 0), coordEq n (nodeAt 1 5) = false) ∧
    (∃ r l₁ l₂,
      movePieceTowardPlayer stPursuit true (nodeAt 1 0) (nodeAt 1 5) =
        (r, setPieceList stPursuit true
          ((pieceList stPursuit true).set
            ((pieceList stPursuit true).indexOf (nodeAt 1 0)) r)) ∧
      getConnectedNodes (setPieceList stPursuit true
        ((pieceList stPursuit true).eraseIdx
          ((pieceList stPursuit true).indexOf (nodeAt 1 0))))
        (nodeAt 1 0) false none = l₁ ++ r :: l₂ ∧
      (∀ a ∈ l₁, dist2 r (nodeAt 1 5) < dist2 a (nodeAt 1 5)) ∧
      (∀ a ∈ l₂, dist2 r (nodeAt 1 5) ≤ dist2 a (nodeAt 1 5))) :=
  ⟨by decide, by decide,
    (pursuit_advance_spec stPursuit true (nodeAt 1 0) (nodeAt 1 5)
      (by decide) (by decide)).2.1 (by decide)⟩

theorem updatePlayerPieces_player1 (g : GState) :
    (updatePlayerPieces g).player1 = g.player1 := by
  unfold updatePlayerPieces
  dsimp only
  split <;> rfl

theorem updatePlayerPieces_player2 (g : GState) :
    (updatePlayerPieces g).player2 = g.player2 := by
  unfold updatePlayerPieces
  dsimp only
  split <;> rfl

theorem captureCenterP1_player1 (g : GState) :
    (captureCenterP1 g).1.player1 =
      (if g.player1.active && g.player1.currentNode == centerNode
       then (losePiece g.player1).1 else g.player1) := by
  unfold captureCenterP1
  dsimp only
  split_ifs <;> rfl

theorem captureCenterP1_player2 (g : GState) :
    (captureCenterP1 g).1.player2 = g.player2 := by
  unfold captureCenterP1
  dsimp only
  split_ifs <;> rfl

theorem captureCenterP2_player1 (g : GState) (b : Bool) :
    (captureCenterP2 g b).1.player1 = g.player1 := by
  unfold captureCenterP2
  dsimp only
  split_ifs <;> rfl

theorem captureCenterP2_player2 (g : GState) (b : Bool) :
    (captureCenterP2 g b).1.player2 =
      (if g.player2.active && g.player2.currentNode == centerNode
       then (losePiece g.player2).1 else g.player2) := by
  unfold captureCenterP2
  dsimp only
  split_ifs <;> rfl

theorem captureCenter_proj (g : GState) :
    (captureCenter g).player1 =
      (captureCenterP2 (captureCenterP1 g).1 (captureCenterP1 g).2).1.player1 ∧
    (captureCenter g).player2 =
      (captureCenterP2 (captureCenterP1 g).1 (captureCenterP1 g).2).1.player2 := by
  unfold captureCenter
  dsimp only
  constructor
  · split
    · exact updatePlayerPieces_player1 _
    · rfl
  · split
    · exact updatePlayerPieces_player2 _
    · rfl

theorem captureCenter_player1 (g : GState) :
    (captureCenter g).player1 =
      (if g.player1.active && g.player1.currentNode == centerNode
       then (losePiece g.player1).1 else g.player1) := by
  rw [(captureCenter_proj g).1, captureCenterP2_player1, captureCenterP1_player1]

theorem captureCenter_player2 (g : GState) :
    (captureCenter g).player2 =
      (if g.player2.active && g.player2.currentNode == centerNode
       then (losePiece g.player2).1 else g.player2) := by
  rw [(captureCenter_proj g).2, captureCenterP2_player2, captureCenterP1_player2]

/-- Claim C1 counterexample: with both players active at the center and a
single fox one hop away pursuing player 1, the fox steps onto the center
(onto the pursued player), yet only player 1 loses a piece — player 2,
also active at the center, keeps both pieces — because the landing is
handled by the landed-on-player branch and the center mass-capture branch
is an elif that never runs. -/
theorem fox_center_capture_not_both :
    gCenterBoth.player1.active = true ∧ gCenterBoth.player2.active = true ∧
    gCenterBoth.player1.currentNode = centerNode ∧
    gCenterBoth.player2.currentNode = centerNode ∧
    (movePieceTowardPlayer gCenterBoth.board true (nodeAt 1 0)
      centerNode).1 = centerNode ∧
    (moveNextFox gCenterBoth).player1.pieces = 1 ∧
    (moveNextFox gCenterBoth).player2.pieces = 2 ∧
    (moveNextFox gCenterBoth).player2.active = true := by decide

/-- Claim C1 (corrected): a pursuit step (fox or snake) whose destination
is the center node captures a piece from every active player token at the
center, independent of whose turn it is, provided the step does not land
on the pursued player's own coordinates; when it does land on the pursued
player (in particular whenever the pursued player is at the center, hence
whenever both players sit there), only the pursued player loses a piece
and the center mass-capture branch is skipped. -/
theorem pursuit_center_capture_amended :
    (∀ (g : GState) (fox : Node),
      g.foxesToMove.get? g.currentFoxIndex = some fox →
      coordEq (movePieceTowardPlayer g.board true fox (curPlayer g).currentNode).1
        (curPlayer g).currentNode = false →
      (movePieceTowardPlayer g.board true fox (curPlayer g).currentNode).1 =
        centerNode →
      ((g.player1.active = true → g.player1.currentNode = centerNode →
        (moveNextFox g).player1.pieces = g.player1.pieces - 1 ∧
        (moveNextFox g).player1.active = false) ∧
       (g.player2.active = true → g.player2.currentNode = centerNode →
        (moveNextFox g).player2.pieces = g.player2.pieces - 1 ∧
        (moveNextFox g).player2.active = false))) ∧
    (∀ (g : GState) (snake : Node),
      g.snakesToMove.get? g.currentSnakeIndex = some snake →
      coordEq (movePieceTowardPlayer g.board false snake (curPlayer g).currentNode).1
        (curPlayer g).currentNode = false →
      (movePieceTowardPlayer g.board false snake (curPlayer g).currentNode).1 =
        centerNode →
      ((g.player1.active = true → g.player1.currentNode = centerNode →
        (moveNextSnake g).player1.pieces = g.player1.pieces - 1 ∧
        (moveNextSnake g).player1.active = false) ∧
       (g.player2.active = true → g.player2.currentNode = centerNode →
        (moveNextSnake g).player2.pieces = g.player2.pieces - 1 ∧
        (moveNextSnake g).player2.active = false))) := by
  constructor
  · intro g fox hfox hnp hc
    have hstep : moveNextFox g =
        { captureCenter { g with
            board := (movePieceTowardPlayer g.board true fox
              (curPlayer g).currentNode).2 } with
          currentFoxIndex := (captureCenter { g with
            board := (movePieceTowardPlayer g.board true fox
              (curPlayer g).currentNode).2 }).currentFoxIndex + 1,
          foxMovementTimer := movementDelay } := by
      simp only [moveNextFox, hfox]
      rw [hnp]
      simp only [Bool.false_eq_true, if_false]
      rw [if_pos hc]
    constructor
    · intro hact hcen
      rw [hstep]
      simp only [captureCenter_player1]
      simp [hact, hcen, losePiece]
    · intro hact hcen
      rw [hstep]
      simp only [captureCenter_player2]
      simp [hact, hcen, losePiece]
  · intro g snake hsnake hnp hc
    have hstep : moveNextSnake g =
        { captureCenter { g with
            board := (movePieceTowardPlayer g.board false snake
              (curPlayer g).currentNode).2 } with
          currentSnakeIndex := (captureCenter { g with
            board := (movePieceTowardPlayer g.board false snake
              (curPlayer g).currentNode).2 }).currentSnakeIndex + 1,
          snakeMovementTimer := movementDelay } := by
      simp only [moveNextSnake, hsnake]
      rw [hnp]
      simp only [Bool.false_eq_true, if_false]
      rw [if_pos hc]
    constructor
    · intro hact hcen
      rw [hstep]
      simp only [captureCenter_player1]
      simp [hact, hcen, losePiece]
    · intro hact hcen
      rw [hstep]
      simp only [captureCenter_player2]
      simp [hact, hcen, losePiece]

theorem pursuit_center_capture_amended_witness :
    ((moveNextFox gFoxToCenter).player2.pieces = 1 ∧
     (moveNextFox gFoxToCenter).player2.active = false) ∧
    ((moveNextSnake gSnakeToCenter).player2.pieces = 1 ∧
     (moveNextSnake gSnakeToCenter).player2.active = false) := by
  constructor
  · have h := (pursuit_center_capture_amended.1 gFoxToCenter (nodeAt 1 0)
      (by decide) (by decide) (by decide)).2 (by decide) (by decide)
    simpa using h
  · have h := (pursuit_center_capture_amended.2 gSnakeToCenter (nodeAt 1 0)
      (by decide) (by decide) (by decide)).2 (by decide) (by decide)
    simpa using h

end SnakesFoxes
